import Mathlib

/-!
Shallow embedding of the `merger` command-line tool (src/main.go), a
single-file Go program that lists the open pull requests of one GitHub
repository, keeps those carrying a configured label, and merges each one
whose check runs have all completed successfully and whose mergeable flag
is true.

Modelling conventions:
* Optional fields of the GitHub client structs (`*string`, `*int`, `*bool`
  pointers in Go) become `Option` fields; the generated Go getters
  (`GetName`, `GetStatus`, `GetMergeable`, ...) return the zero value when
  the pointer is nil, which we mirror with `Option.getD`.
* Remote calls are oracles: an `Api` record of pure functions giving the
  response of each endpoint (the owner and repository name arguments of
  the Go client calls are fixed for a run, so the oracle is keyed only by
  the data that varies per call: the head ref for check-run listing, the
  pull-request number for merging). Transport errors are the
  `Except.error` side, carrying the formatted underlying error string.
* Errors built with `fmt.Errorf` are reified as the `ItemError` inductive,
  whose constructors carry exactly the data interpolated into each format
  string of src/main.go.
* `log.Fatal` / `log.Fatalf` (process exit with non-zero status) and the
  final state of `main` are reified in the `RunOutcome` type; the trace
  fields of `RunResult` record which remote calls were issued.
* Go `strings.Split` and `strings.TrimSpace` are re-implemented over the
  character list of the string (`stringsSplit`, `trimSpace`); `trimSpace`
  covers the Latin-1 white space characters recognised by Go
  `unicode.IsSpace` (the rarely used Unicode category-Z code points above
  U+00A0 are not modelled; none of the properties below depend on them).
-/

/-- A pull-request label (github.Label): only the name field is read. -/
structure Label where
  name : Option String
deriving DecidableEq, Repr

/-- `Label.GetName` in Go: empty string when the field is nil. -/
def Label.getName (l : Label) : String := l.name.getD ""

/-- A check run (github.CheckRun): id, status and conclusion are read. -/
structure CheckRun where
  id : Option Int
  status : Option String
  conclusion : Option String
deriving DecidableEq, Repr

/-- `CheckRun.GetID`. -/
def CheckRun.getID (cr : CheckRun) : Int := cr.id.getD 0

/-- `CheckRun.GetStatus`. -/
def CheckRun.getStatus (cr : CheckRun) : String := cr.status.getD ""

/-- `CheckRun.GetConclusion`. -/
def CheckRun.getConclusion (cr : CheckRun) : String := cr.conclusion.getD ""

/-- A branch reference (github.PullRequestBranch): ref and label fields. -/
structure Branch where
  ref : Option String
  label : Option String
deriving DecidableEq, Repr

/-- `PullRequestBranch.GetRef`. -/
def Branch.getRef (b : Branch) : String := b.ref.getD ""

/-- `PullRequestBranch.GetLabel`. -/
def Branch.getLabel (b : Branch) : String := b.label.getD ""

/-- A pull request (github.PullRequest): the fields main.go reads. -/
structure PullRequest where
  number : Option Int
  labels : List Label
  head : Option Branch
  mergeable : Option Bool
  mergeableState : Option String
deriving DecidableEq, Repr

/-- `PullRequest.GetNumber`. -/
def PullRequest.getNumber (pr : PullRequest) : Int := pr.number.getD 0

/-- `PullRequest.GetHead`: zero-value branch when nil. -/
def PullRequest.getHead (pr : PullRequest) : Branch :=
  pr.head.getD ⟨none, none⟩

/-- `PullRequest.GetMergeable`: false when the pointer is nil, so the
platform tri-state (true / false / not yet computed) collapses to a
boolean with unknown read as false. -/
def PullRequest.getMergeable (pr : PullRequest) : Bool :=
  pr.mergeable.getD false

/-- `PullRequest.GetMergeableState`. -/
def PullRequest.getMergeableState (pr : PullRequest) : String :=
  pr.mergeableState.getD ""

/-- `filterPullRequestsByLabel`, inner loop: the `contains` flag starts
false and is set when a label name equals the expected label. -/
def prHasLabel (pr : PullRequest) (expectedLabel : String) : Bool :=
  pr.labels.foldl
    (fun contains l => if l.getName == expectedLabel then true else contains)
    false

/-- `filterPullRequestsByLabel` from src/main.go: appends each pull
request whose `contains` flag ended true to the accumulator, in order. -/
def filterPullRequestsByLabel
    (pullRequests : List PullRequest) (expectedLabel : String) :
    List PullRequest :=
  pullRequests.foldl
    (fun acc pr => if prHasLabel pr expectedLabel then acc ++ [pr] else acc)
    []

/-- The white space characters of Go `unicode.IsSpace` up to U+00A0. -/
def isSpaceGo (c : Char) : Bool :=
  c == ' ' || c == '\t' || c == '\n' || c == '\x0B' || c == '\x0C'
    || c == '\r' || c == '\u0085' || c == '\u00A0'

/-- Drop leading white space from a character list. -/
def dropLeadingSpace : List Char → List Char
  | [] => []
  | c :: cs => if isSpaceGo c then dropLeadingSpace cs else c :: cs

/-- Go `strings.TrimSpace`: strip white space from both ends. -/
def trimSpace (s : String) : String :=
  String.mk
    ((dropLeadingSpace ((dropLeadingSpace s.toList).reverse)).reverse)

/-- Go `strings.Split` with a one-character separator, over the
character list: splitting the empty string yields one empty segment. -/
def splitChar (sep : Char) : List Char → List (List Char)
  | [] => [[]]
  | c :: cs =>
    match splitChar sep cs with
    | [] => [[]]
    | r :: rs => if c = sep then [] :: r :: rs else (c :: r) :: rs

/-- Go `strings.Split s sep` for a one-character separator. -/
def stringsSplit (s : String) (sep : Char) : List String :=
  (splitChar sep s.toList).map String.mk

/-- Decidable equality for `Except`, used to evaluate concrete runs. -/
instance instExceptDecidableEq {ε α : Type} [DecidableEq ε]
    [DecidableEq α] : DecidableEq (Except ε α)
  | .ok x, .ok y =>
    if h : x = y then .isTrue (congrArg Except.ok h)
    else .isFalse (fun hc => h (Except.ok.inj hc))
  | .error x, .error y =>
    if h : x = y then .isTrue (congrArg Except.error h)
    else .isFalse (fun hc => h (Except.error.inj hc))
  | .ok _, .error _ => .isFalse (fun hc => Except.noConfusion hc)
  | .error _, .ok _ => .isFalse (fun hc => Except.noConfusion hc)

/-- The distinct fatal configuration diagnostics of `main` (each a
`log.Fatal` / `log.Fatalf` message; `malformedRepo` carries the raw
repository string interpolated into its message). -/
inductive ConfigError
  | tokenMissing
  | repoMissing
  | labelMissing
  | malformedRepo (raw : String)
deriving DecidableEq, Repr

/-- The validated configuration `main` proceeds with: token, the two
parts of the repository identifier, and the label filter. -/
structure Config where
  token : String
  owner : String
  repoName : String
  label : String
deriving DecidableEq, Repr

/-- The configuration-resolution half of `main` (src/main.go lines
42-64): trim-based emptiness checks on token, repository and label in
that order, then the repository is split on the slash and required to
have exactly two parts. The parts themselves are not checked further. -/
def resolveConfig (token repo label : String) : Except ConfigError Config :=
  if trimSpace token = "" then .error .tokenMissing
  else if trimSpace repo = "" then .error .repoMissing
  else if trimSpace label = "" then .error .labelMissing
  else
    if (stringsSplit repo '/').length ≠ 2 then .error (.malformedRepo repo)
    else
      .ok
        ⟨token, (stringsSplit repo '/').getD 0 "",
          (stringsSplit repo '/').getD 1 "", label⟩

/-- The per-item errors `checkAndMerge` can return, one constructor per
`fmt.Errorf` call site, carrying exactly the data the format string
interpolates. -/
inductive ItemError
  | checkFetchFailed (number : Int) (branchLabel : String)
      (underlying : String)
  | notMergeable (number : Int) (mergeableState : String)
  | mergeFailed (number : Int) (underlying : String)
deriving DecidableEq, Repr

/-- Oracle for the three GitHub endpoints the program calls. -/
structure Api where
  listPullRequests : Except String (List PullRequest)
  listCheckRuns : String → Except String (List CheckRun)
  merge : Int → Except String String

/-- Result of one `checkAndMerge` call: the returned error (none for the
Go `nil` return) and whether the merge endpoint was called. -/
structure CheckAndMergeResult where
  err : Option ItemError
  mergeIssued : Bool
deriving DecidableEq, Repr

/-- One check run counts as passed when its status is exactly
"completed" and its conclusion exactly "success". -/
def checkRunOk (cr : CheckRun) : Bool :=
  cr.getStatus == "completed" && cr.getConclusion == "success"

/-- The check-aggregation loop of `checkAndMerge` (src/main.go lines
133-157): `allChecksOk` starts true and is set to false for every check
run that is not completed or completed without success. -/
def allChecksOk (checkRuns : List CheckRun) : Bool :=
  checkRuns.foldl
    (fun ok cr =>
      if cr.getStatus == "completed" then
        if cr.getConclusion == "success" then ok else false
      else false)
    true

/-- The body of `if allChecksOk { ... }` in `checkAndMerge` (src/main.go
lines 159-181): the mergeability gate followed by the merge call. -/
def mergeGate (api : Api) (pr : PullRequest) : CheckAndMergeResult :=
  if !pr.getMergeable then
    ⟨some (.notMergeable pr.getNumber pr.getMergeableState), false⟩
  else
    match api.merge pr.getNumber with
    | .error e => ⟨some (.mergeFailed pr.getNumber e), true⟩
    | .ok _sha => ⟨none, true⟩

/-- `checkAndMerge` from src/main.go: list the check runs for the head
ref (a listing error is a per-item failure), aggregate them, and when
the aggregate is true run the mergeability gate and merge; otherwise
return nil without touching the merge endpoint. -/
def checkAndMerge (api : Api) (pr : PullRequest) : CheckAndMergeResult :=
  match api.listCheckRuns pr.getHead.getRef with
  | .error e =>
      ⟨some (.checkFetchFailed pr.getNumber pr.getHead.getLabel e), false⟩
  | .ok checkRuns =>
      if allChecksOk checkRuns then mergeGate api pr
      else ⟨none, false⟩

/-- The candidate loop of `main` (src/main.go lines 78-84), instrumented:
the accumulator carries the failure count of the code together with a
trace (number of check-run listing calls, pull-request numbers the merge
endpoint was called for). -/
def processCandidates (api : Api) :
    List PullRequest → Nat × Nat × List Int → Nat × Nat × List Int
  | [], acc => acc
  | pr :: rest, acc =>
    processCandidates api rest
      ((if (checkAndMerge api pr).err.isSome then acc.1 + 1 else acc.1),
       acc.2.1 + 1,
       acc.2.2
         ++ (if (checkAndMerge api pr).mergeIssued
             then [pr.getNumber] else []))

/-- Specification-side list of merge calls a candidate list produces. -/
def mergeCallsOf (api : Api) : List PullRequest → List Int
  | [] => []
  | pr :: rest =>
    (if (checkAndMerge api pr).mergeIssued then [pr.getNumber] else [])
      ++ mergeCallsOf api rest

/-- How a run of `main` ends: a fatal configuration diagnostic, a fatal
listing failure (carrying the repository string and the underlying error
of the message), or loop completion with the final failure count and the
number of filtered candidates. -/
inductive RunOutcome
  | fatalConfig (e : ConfigError)
  | fatalListing (repo : String) (underlying : String)
  | completed (failureCount : Nat) (candidateCount : Nat)
deriving DecidableEq, Repr

/-- Exit status of the process: `log.Fatal` exits non-zero, and a
completed run exits non-zero exactly when `failureCount > 0` triggers
the final `log.Fatalf` (src/main.go lines 86-92). -/
def RunOutcome.exitNonZero : RunOutcome → Bool
  | .fatalConfig _ => true
  | .fatalListing _ _ => true
  | .completed failureCount _ => decide (0 < failureCount)

/-- Result of a whole run: the outcome plus a trace of the remote calls
issued (whether the pull-request listing ran, how many check-run listing
calls were made, and which pull-request numbers were sent to merge). -/
structure RunResult where
  outcome : RunOutcome
  listCalled : Bool
  checkRunCalls : Nat
  mergeCalls : List Int
deriving DecidableEq, Repr

/-- `main` from src/main.go as a function of the flag values and the
remote oracle: resolve the configuration (fatal on failure, before any
remote call), list the pull requests (fatal on error, embedding the
repository string and the underlying error), filter by label, run the
candidate loop, and report the failure count over the candidate count. -/
def mergeRunner (token repo label : String) (api : Api) : RunResult :=
  match resolveConfig token repo label with
  | .error e => ⟨.fatalConfig e, false, 0, []⟩
  | .ok _cfg =>
    match api.listPullRequests with
    | .error e => ⟨.fatalListing repo e, true, 0, []⟩
    | .ok pullRequests =>
      let labeled := filterPullRequestsByLabel pullRequests label
      let final := processCandidates api labeled (0, 0, [])
      ⟨.completed final.1 labeled.length, true, final.2.1, final.2.2⟩

/-- Fixture: an oracle with no pull requests, no check runs, and a merge
endpoint that succeeds. -/
def apiEmpty : Api where
  listPullRequests := .ok []
  listCheckRuns := fun _ => .ok []
  merge := fun _ => .ok "0a1b2c3"

/-- Fixture: a completed-but-failed check run. -/
def failedRun : CheckRun := ⟨some 11, some "completed", some "failure"⟩

/-- Fixture: every check-run listing returns one failed run. -/
def apiFailedRun : Api :=
  { apiEmpty with listCheckRuns := fun _ => .ok [failedRun] }

/-- Fixture: a labelled, mergeable pull request. -/
def prDeps : PullRequest :=
  ⟨some 7, [⟨some "deps"⟩], some ⟨some "feature", some "acme:feature"⟩,
    some true, some "clean"⟩

/-- Fixture: a labelled pull request whose mergeable field is nil. -/
def prUnknownMergeable : PullRequest :=
  ⟨some 5, [⟨some "deps"⟩], some ⟨some "topic", some "acme:topic"⟩,
    none, some "unknown"⟩

/-- Fixture: a pull request whose only label has a nil name. -/
def prNilLabelName : PullRequest := ⟨some 9, [⟨none⟩], none, none, none⟩

/-- Fixture: a pull request labelled "docs" only. -/
def prDocs : PullRequest :=
  ⟨some 2, [⟨some "docs"⟩], some ⟨some "doc-fix", some "acme:doc-fix"⟩,
    some true, some "clean"⟩

/-- Fixture: listing returns one mergeable and one unknown-mergeable
labelled pull request; check-run listings are empty, merging succeeds. -/
def apiTwoPrs : Api :=
  { apiEmpty with listPullRequests := .ok [prDeps, prUnknownMergeable] }

/-- Fixture: the pull-request listing itself fails. -/
def apiListErr : Api :=
  { apiEmpty with listPullRequests := .error "boom" }

/-- Fixture: listing returns only the "docs" pull request. -/
def apiDocsOnly : Api :=
  { apiEmpty with listPullRequests := .ok [prDocs] }

/-- The label loop computes: flag-so-far OR some label matches. -/
theorem prHasLabel_foldl (expectedLabel : String) (ls : List Label)
    (b : Bool) :
    ls.foldl
        (fun contains l =>
          if l.getName == expectedLabel then true else contains) b
      = (b || ls.any (fun l => l.getName == expectedLabel)) := by
  induction ls generalizing b with
  | nil => simp
  | cons l ls ih =>
    rw [List.foldl_cons, List.any_cons, ih]
    cases hb : (l.getName == expectedLabel) <;> simp [hb]

/-- `prHasLabel` is true exactly when some label name equals the target. -/
theorem prHasLabel_iff (pr : PullRequest) (expectedLabel : String) :
    prHasLabel pr expectedLabel = true
      ↔ ∃ l ∈ pr.labels, l.getName = expectedLabel := by
  unfold prHasLabel
  rw [prHasLabel_foldl]
  simp [List.any_eq_true]

/-- The filter loop is `List.filter` modulo the accumulator. -/
theorem filterPullRequestsByLabel_foldl (expectedLabel : String)
    (prs : List PullRequest) (acc : List PullRequest) :
    prs.foldl
        (fun acc pr =>
          if prHasLabel pr expectedLabel then acc ++ [pr] else acc) acc
      = acc ++ prs.filter (fun pr => prHasLabel pr expectedLabel) := by
  induction prs generalizing acc with
  | nil => simp
  | cons pr prs ih =>
    by_cases h : prHasLabel pr expectedLabel <;>
      simp [h, ih, List.filter_cons]

/-- `filterPullRequestsByLabel` equals `List.filter` over `prHasLabel`. -/
theorem filterPullRequestsByLabel_eq_filter
    (prs : List PullRequest) (expectedLabel : String) :
    filterPullRequestsByLabel prs expectedLabel
      = prs.filter (fun pr => prHasLabel pr expectedLabel) := by
  unfold filterPullRequestsByLabel
  rw [filterPullRequestsByLabel_foldl]
  simp

/-- C3: a pull request appears in the output of
`filterPullRequestsByLabel` if and only if it appears in the input and at
least one of its labels has name exactly equal to the target label
(string equality: case-sensitive, no trimming); the empty input yields
the empty output. -/
theorem filter_membership_iff :
    (∀ (prs : List PullRequest) (expectedLabel : String)
        (pr : PullRequest),
      pr ∈ filterPullRequestsByLabel prs expectedLabel
        ↔ pr ∈ prs ∧ ∃ l ∈ pr.labels, l.getName = expectedLabel)
    ∧ ∀ expectedLabel : String,
        filterPullRequestsByLabel [] expectedLabel = [] := by
  constructor
  · intro prs expectedLabel pr
    rw [filterPullRequestsByLabel_eq_filter, List.mem_filter,
      prHasLabel_iff]
  · intro expectedLabel
    rfl

/-- C3 witness: a concrete pull request with a matching label is kept. -/
theorem filter_membership_iff_witness :
    prDeps ∈ filterPullRequestsByLabel [prDeps, prDocs] "deps" := by
  exact (filter_membership_iff.1 [prDeps, prDocs] "deps" prDeps).2
    ⟨by simp, ⟨some "deps"⟩, by simp [prDeps], rfl⟩

/-- C8: label filtering is order-preserving (the output is a sublist of
the input, keeping relative order) and idempotent: filtering the output
again with the same label changes nothing. (The function is a pure Lean
function of its two arguments, so purity holds by construction.) -/
theorem filter_sublist_and_idempotent
    (prs : List PullRequest) (expectedLabel : String) :
    List.Sublist (filterPullRequestsByLabel prs expectedLabel) prs
    ∧ filterPullRequestsByLabel
        (filterPullRequestsByLabel prs expectedLabel) expectedLabel
      = filterPullRequestsByLabel prs expectedLabel := by
  constructor
  · rw [filterPullRequestsByLabel_eq_filter]
    exact List.filter_sublist prs
  · rw [filterPullRequestsByLabel_eq_filter,
      filterPullRequestsByLabel_eq_filter, List.filter_filter]
    simp

/-- Nil label names read as the empty string (getter definition). -/
theorem getName_none (l : Label) (h : l.name = none) : l.getName = "" := by
  simp [Label.getName, h]

/-- C9: a label with an absent (nil) name is read as the empty string by
the filter, and since the configured target label is non-empty after
trimming, a pull request all of whose labels have nil names is never in
the filtered output. -/
theorem nil_label_names_excluded :
    (∀ l : Label, l.name = none → l.getName = "")
    ∧ ∀ (expectedLabel : String) (prs : List PullRequest)
        (pr : PullRequest),
        trimSpace expectedLabel ≠ "" →
        (∀ l ∈ pr.labels, l.name = none) →
        pr ∉ filterPullRequestsByLabel prs expectedLabel := by
  refine ⟨getName_none, ?_⟩
  intro expectedLabel prs pr hlbl hnil hmem
  rw [filterPullRequestsByLabel_eq_filter, List.mem_filter,
    prHasLabel_iff] at hmem
  obtain ⟨-, l, hl, hname⟩ := hmem
  rw [getName_none l (hnil l hl)] at hname
  exact hlbl (hname ▸ rfl)

/-- C9 witness: the all-nil-names pull request is dropped for label
"deps". -/
theorem nil_label_names_excluded_witness :
    prNilLabelName ∉ filterPullRequestsByLabel [prNilLabelName] "deps" := by
  exact nil_label_names_excluded.2 "deps" [prNilLabelName] prNilLabelName
    (by decide) (by decide)

/-- Unfolding the check-aggregation loop: the flag ANDs `checkRunOk`
over the list. -/
theorem allChecksOk_foldl (checkRuns : List CheckRun) (b : Bool) :
    checkRuns.foldl
        (fun ok cr =>
          if cr.getStatus == "completed" then
            if cr.getConclusion == "success" then ok else false
          else false) b
      = (b && checkRuns.all checkRunOk) := by
  induction checkRuns generalizing b with
  | nil => simp
  | cons cr checkRuns ih =>
    rw [List.foldl_cons, List.all_cons, ih]
    unfold checkRunOk
    cases h1 : (cr.getStatus == "completed") <;>
      cases h2 : (cr.getConclusion == "success") <;> simp [h1, h2]

/-- `allChecksOk` holds exactly when every run is completed/success. -/
theorem allChecksOk_iff (checkRuns : List CheckRun) :
    allChecksOk checkRuns = true
      ↔ ∀ cr ∈ checkRuns,
          cr.getStatus = "completed" ∧ cr.getConclusion = "success" := by
  unfold allChecksOk
  rw [allChecksOk_foldl]
  simp [checkRunOk, List.all_eq_true]

/-- C1: the check aggregate of `checkAndMerge` is true iff every
retrieved check run has status exactly "completed" and conclusion
exactly "success"; with zero check runs it is vacuously true and
`checkAndMerge` proceeds to the mergeability gate (`mergeGate`); one run
with a different status or a non-success conclusion makes it false. -/
theorem check_aggregate_correct :
    (∀ checkRuns : List CheckRun,
      allChecksOk checkRuns = true
        ↔ ∀ cr ∈ checkRuns,
            cr.getStatus = "completed" ∧ cr.getConclusion = "success")
    ∧ allChecksOk [] = true
    ∧ (∀ (api : Api) (pr : PullRequest),
        api.listCheckRuns pr.getHead.getRef = .ok [] →
        checkAndMerge api pr = mergeGate api pr)
    ∧ ∀ cr : CheckRun,
        cr.getStatus ≠ "completed" ∨ cr.getConclusion ≠ "success" →
        allChecksOk [cr] = false := by
  refine ⟨allChecksOk_iff, rfl, ?_, ?_⟩
  · intro api pr h
    unfold checkAndMerge
    rw [h]
    rfl
  · intro cr hbad
    cases hall : allChecksOk [cr] with
    | false => rfl
    | true =>
      obtain ⟨h1, h2⟩ :=
        (allChecksOk_iff [cr]).1 hall cr (List.mem_singleton.2 rfl)
      rcases hbad with hb | hb <;> exact absurd (by assumption) hb

/-- C1 witness: zero check runs proceed to the gate (concrete oracle),
and one in-progress run forces the aggregate false. -/
theorem check_aggregate_correct_witness :
    checkAndMerge apiEmpty prDeps = mergeGate apiEmpty prDeps
    ∧ allChecksOk [⟨some 3, some "in_progress", none⟩] = false := by
  exact ⟨check_aggregate_correct.2.2.1 apiEmpty prDeps rfl,
    check_aggregate_correct.2.2.2 ⟨some 3, some "in_progress", none⟩
      (Or.inl (by decide))⟩

/-- C2: when the check aggregate over the retrieved runs is false,
`checkAndMerge` never calls the merge endpoint — whatever the mergeable
flag holds — and returns no error (the skip is not a per-item failure). -/
theorem aggregate_false_skips (api : Api) (pr : PullRequest)
    (checkRuns : List CheckRun)
    (hlist : api.listCheckRuns pr.getHead.getRef = .ok checkRuns)
    (hagg : allChecksOk checkRuns = false) :
    (checkAndMerge api pr).mergeIssued = false
    ∧ (checkAndMerge api pr).err = none := by
  unfold checkAndMerge
  rw [hlist]
  simp [hagg]

/-- C2 witness: a mergeable pull request with one failed check run is
skipped without error and without a merge call. -/
theorem aggregate_false_skips_witness :
    (checkAndMerge apiFailedRun prDeps).mergeIssued = false
    ∧ (checkAndMerge apiFailedRun prDeps).err = none := by
  exact aggregate_false_skips apiFailedRun prDeps [failedRun] rfl (by decide)

/-- C6: when the aggregate is true but the mergeable field reads false —
either stored false or nil, which the getter collapses to false —
`checkAndMerge` returns the per-item failure carrying the pull-request
number and the mergeable-state descriptor, and never calls the merge
endpoint. -/
theorem not_mergeable_failure (api : Api) (pr : PullRequest)
    (checkRuns : List CheckRun)
    (hlist : api.listCheckRuns pr.getHead.getRef = .ok checkRuns)
    (hagg : allChecksOk checkRuns = true)
    (hm : pr.mergeable = some false ∨ pr.mergeable = none) :
    (checkAndMerge api pr).err
        = some (.notMergeable pr.getNumber pr.getMergeableState)
    ∧ (checkAndMerge api pr).mergeIssued = false := by
  have hgm : pr.getMergeable = false := by
    rcases hm with h | h <;> simp [PullRequest.getMergeable, h]
  unfold checkAndMerge
  rw [hlist]
  simp [hagg, mergeGate, hgm]

/-- C6 witness: zero check runs and a nil mergeable field produce the
not-mergeable failure for pull request 5 and no merge call. -/
theorem not_mergeable_failure_witness :
    (checkAndMerge apiEmpty prUnknownMergeable).err
        = some (.notMergeable prUnknownMergeable.getNumber
            prUnknownMergeable.getMergeableState)
    ∧ (checkAndMerge apiEmpty prUnknownMergeable).mergeIssued = false := by
  exact not_mergeable_failure apiEmpty prUnknownMergeable [] rfl rfl
    (Or.inr rfl)

/-- The instrumented candidate loop: the failure count gains exactly the
number of erring candidates, each candidate makes one check-run listing
call, and the merge-call trace extends by `mergeCallsOf`. -/
theorem processCandidates_spec (api : Api) (cands : List PullRequest)
    (fc calls : Nat) (ms : List Int) :
    processCandidates api cands (fc, calls, ms)
      = (fc + cands.countP (fun pr => (checkAndMerge api pr).err.isSome),
         calls + cands.length, ms ++ mergeCallsOf api cands) := by
  induction cands generalizing fc calls ms with
  | nil => simp [processCandidates, mergeCallsOf]
  | cons pr rest ih =>
    rw [show processCandidates api (pr :: rest) (fc, calls, ms)
        = processCandidates api rest
            ((if (checkAndMerge api pr).err.isSome then fc + 1 else fc),
             calls + 1,
             ms ++ (if (checkAndMerge api pr).mergeIssued
               then [pr.getNumber] else [])) from rfl, ih]
    cases h : (checkAndMerge api pr).err.isSome <;>
      cases hm : (checkAndMerge api pr).mergeIssued <;>
        simp [h, hm, List.countP_cons, mergeCallsOf, List.append_assoc] <;>
          omega

/-- C4: after a successful configuration and listing, the runner visits
every filtered candidate (one check-run listing call each, no
short-circuit), completes with failure count K = the number of
candidates whose evaluation returned an error and candidate count N =
the number of filtered candidates, and exits non-zero iff K > 0. -/
theorem run_level_counting (token repo label : String) (cfg : Config)
    (api : Api) (prs : List PullRequest)
    (hcfg : resolveConfig token repo label = .ok cfg)
    (hlist : api.listPullRequests = .ok prs) :
    (mergeRunner token repo label api).outcome
        = .completed
            ((filterPullRequestsByLabel prs label).countP
              (fun pr => (checkAndMerge api pr).err.isSome))
            (filterPullRequestsByLabel prs label).length
    ∧ (mergeRunner token repo label api).checkRunCalls
        = (filterPullRequestsByLabel prs label).length
    ∧ ((mergeRunner token repo label api).outcome.exitNonZero = true
        ↔ 0 < (filterPullRequestsByLabel prs label).countP
            (fun pr => (checkAndMerge api pr).err.isSome)) := by
  unfold mergeRunner
  rw [hcfg, hlist]
  simp [processCandidates_spec, RunOutcome.exitNonZero]

/-- C4 witness: two "deps" candidates of which exactly one fails (not
mergeable) give outcome completed 1/2, two check-run calls, and a
non-zero exit. -/
theorem run_level_counting_witness :
    (mergeRunner "t" "a/b" "deps" apiTwoPrs).outcome
        = .completed
            ((filterPullRequestsByLabel [prDeps, prUnknownMergeable]
                "deps").countP
              (fun pr => (checkAndMerge apiTwoPrs pr).err.isSome))
            (filterPullRequestsByLabel [prDeps, prUnknownMergeable]
              "deps").length
    ∧ (mergeRunner "t" "a/b" "deps" apiTwoPrs).checkRunCalls
        = (filterPullRequestsByLabel [prDeps, prUnknownMergeable]
            "deps").length
    ∧ ((mergeRunner "t" "a/b" "deps" apiTwoPrs).outcome.exitNonZero = true
        ↔ 0 < (filterPullRequestsByLabel [prDeps, prUnknownMergeable]
            "deps").countP
            (fun pr => (checkAndMerge apiTwoPrs pr).err.isSome)) := by
  exact run_level_counting "t" "a/b" "deps" ⟨"t", "a", "b", "deps"⟩
    apiTwoPrs [prDeps, prUnknownMergeable] (by decide) rfl

/-- C5 counterexample: "a/" splits on the slash into exactly two
segments of which the second is empty, so by the claim it should be
rejected as a malformed repository identifier; `resolveConfig` accepts
it with an empty repository-name part, because the code only counts the
segments. -/
theorem config_validation_counterexample :
    resolveConfig "t" "a/" "x" = .ok ⟨"t", "a", "", "x"⟩
    ∧ (stringsSplit "a/" '/').length = 2
    ∧ (stringsSplit "a/" '/').getD 1 "missing" = "" := by
  refine ⟨by decide, by decide, by decide⟩

/-- C5 (amended): configuration validation runs in the fixed order
token, repository, label, repository format, the first failing check
producing its distinct fatal diagnostic, and any configuration failure
stops the run before any remote call; the format check rejects exactly
the identifiers that do not split on "/" into exactly two segments
(segment emptiness is not checked). -/
theorem config_validation_order (token repo label : String) :
    (trimSpace token = "" →
      resolveConfig token repo label = .error .tokenMissing)
    ∧ (trimSpace token ≠ "" → trimSpace repo = "" →
      resolveConfig token repo label = .error .repoMissing)
    ∧ (trimSpace token ≠ "" → trimSpace repo ≠ "" →
      trimSpace label = "" →
      resolveConfig token repo label = .error .labelMissing)
    ∧ (trimSpace token ≠ "" → trimSpace repo ≠ "" →
      trimSpace label ≠ "" → (stringsSplit repo '/').length ≠ 2 →
      resolveConfig token repo label = .error (.malformedRepo repo))
    ∧ (trimSpace token ≠ "" → trimSpace repo ≠ "" →
      trimSpace label ≠ "" → (stringsSplit repo '/').length = 2 →
      resolveConfig token repo label
        = .ok ⟨token, (stringsSplit repo '/').getD 0 "",
            (stringsSplit repo '/').getD 1 "", label⟩)
    ∧ ∀ e, resolveConfig token repo label = .error e →
        ∀ api : Api, mergeRunner token repo label api
          = ⟨.fatalConfig e, false, 0, []⟩ := by
  refine ⟨?_, ?_, ?_, ?_, ?_, ?_⟩
  · intro h1
    simp [resolveConfig, h1]
  · intro h1 h2
    simp [resolveConfig, h1, h2]
  · intro h1 h2 h3
    simp [resolveConfig, h1, h2, h3]
  · intro h1 h2 h3 h4
    simp [resolveConfig, h1, h2, h3, h4]
  · intro h1 h2 h3 h4
    simp [resolveConfig, h1, h2, h3, h4]
  · intro e he api
    unfold mergeRunner
    rw [he]

/-- C5 witness: a repository identifier with two separators triggers the
malformed-repository diagnostic and its run makes no remote call. -/
theorem config_validation_order_witness :
    resolveConfig "t" "a/b/c" "x" = .error (.malformedRepo "a/b/c")
    ∧ mergeRunner "t" "a/b/c" "x" apiEmpty
        = ⟨.fatalConfig (.malformedRepo "a/b/c"), false, 0, []⟩ := by
  have h := (config_validation_order "t" "a/b/c" "x").2.2.2.1
    (by decide) (by decide) (by decide) (by decide)
  exact ⟨h, (config_validation_order "t" "a/b/c" "x").2.2.2.2.2
    (.malformedRepo "a/b/c") h apiEmpty⟩

/-- C7: when the pull-request listing call fails, the run ends with the
fatal outcome carrying the repository identifier and the underlying
error, with zero check-run listing calls and zero merge calls (nothing
per-candidate ran), and the exit status is non-zero. -/
theorem listing_error_fatal (token repo label : String) (cfg : Config)
    (api : Api) (e : String)
    (hcfg : resolveConfig token repo label = .ok cfg)
    (hlist : api.listPullRequests = .error e) :
    mergeRunner token repo label api = ⟨.fatalListing repo e, true, 0, []⟩
    ∧ (RunOutcome.fatalListing repo e).exitNonZero = true := by
  unfold mergeRunner
  rw [hcfg, hlist]
  exact ⟨rfl, rfl⟩

/-- C7 witness: a failing listing call aborts the concrete run fatally
with no per-candidate work. -/
theorem listing_error_fatal_witness :
    mergeRunner "t" "a/b" "deps" apiListErr
        = ⟨.fatalListing "a/b" "boom", true, 0, []⟩
    ∧ (RunOutcome.fatalListing "a/b" "boom").exitNonZero = true := by
  exact listing_error_fatal "t" "a/b" "deps" ⟨"t", "a", "b", "deps"⟩
    apiListErr "boom" (by decide) rfl

/-- C10: when label filtering keeps no pull request, the run makes no
check-run listing call and no merge call, completes with failure count
zero over zero candidates, and exits with status zero. -/
theorem empty_filter_clean_exit (token repo label : String) (cfg : Config)
    (api : Api) (prs : List PullRequest)
    (hcfg : resolveConfig token repo label = .ok cfg)
    (hlist : api.listPullRequests = .ok prs)
    (hfilter : filterPullRequestsByLabel prs label = []) :
    mergeRunner token repo label api = ⟨.completed 0 0, true, 0, []⟩
    ∧ (mergeRunner token repo label api).outcome.exitNonZero = false := by
  unfold mergeRunner
  rw [hcfg, hlist]
  simp [hfilter, processCandidates, RunOutcome.exitNonZero]

/-- C10 witness: with only a "docs" pull request listed and label "deps",
the run touches no check-run or merge endpoint and exits zero. -/
theorem empty_filter_clean_exit_witness :
    mergeRunner "t" "a/b" "deps" apiDocsOnly
        = ⟨.completed 0 0, true, 0, []⟩
    ∧ (mergeRunner "t" "a/b" "deps" apiDocsOnly).outcome.exitNonZero
        = false := by
  exact empty_filter_clean_exit "t" "a/b" "deps" ⟨"t", "a", "b", "deps"⟩
    apiDocsOnly [prDocs] (by decide) rfl (by decide)
